import Mathlib

/-!
# mqtt-xset: the dispatch core of `main.go`

A shallow embedding of `main.go` (package `main`): the action table `commands`,
the message handler `analyzePayload` and the start-up sequence `main`.

Side effects are made explicit as a trace of events.  The pieces of the Go
standard library and of the MQTT client the program calls (`log`, `os/exec`,
`os.Hostname`, `client.Connect`, ...) are not part of the repository; their
results are inputs of the model (`Host`, `Env`) and their documented behaviour
is written out in the definitions that stand for them.
-/

namespace MqttXset

/-! ## Go values -/

/-- One element of a Go `[]byte`. -/
abbrev Byte := Fin 256

/-- UTF-8 encoding of one character (Go source text and Go strings are UTF-8). -/
def utf8Char (c : Char) : List Byte :=
  let v := c.toNat
  if v < 0x80 then [Fin.ofNat v]
  else if v < 0x800 then [Fin.ofNat (0xC0 + v / 0x40), Fin.ofNat (0x80 + v % 0x40)]
  else if v < 0x10000 then
    [Fin.ofNat (0xE0 + v / 0x1000), Fin.ofNat (0x80 + v / 0x40 % 0x40), Fin.ofNat (0x80 + v % 0x40)]
  else
    [Fin.ofNat (0xF0 + v / 0x40000), Fin.ofNat (0x80 + v / 0x1000 % 0x40),
      Fin.ofNat (0x80 + v / 0x40 % 0x40), Fin.ofNat (0x80 + v % 0x40)]

/-- The bytes of a Go string constant such as `"on"`. -/
def goString (s : String) : List Byte :=
  s.toList.flatMap utf8Char

/-- The struct `displayCommands` (main.go, lines 15-18). -/
structure displayCommands where
  OnCommand : List String
  OffCommand : List String
deriving DecidableEq, Repr

/-- The zero value of `displayCommands`: both slices nil. -/
def displayCommands.zero : displayCommands :=
  { OnCommand := [], OffCommand := [] }

/-- The map literal assigned to the global `commands` in `main` (lines 26-35). -/
def commands : List (String × displayCommands) :=
  [ ("darwin",
      { OnCommand := ["caffeinate", "-u", "-t", "2"],
        OffCommand := ["pmset", "displaysleepnow"] }),
    ("linux",
      { OnCommand := ["xset", "dpms", "force", "on"],
        OffCommand := ["xset", "dpms", "force", "off"] }) ]

/-- The two-result map index `v, ok := m[k]`: `none` stands for `ok == false`. -/
def mapLookup (m : List (String × displayCommands)) (k : String) : Option displayCommands :=
  m.lookup k

/-- The one-result map index `m[k]`: a missing key yields the zero value. -/
def mapIndex (m : List (String × displayCommands)) (k : String) : displayCommands :=
  (mapLookup m k).getD displayCommands.zero

/-- Run-time panics the program can raise. -/
inductive Panic where
  /-- The Go run-time error "index out of range [index] with length length". -/
  | indexOutOfRange (index length : Nat)
  /-- The Go run-time error "slice bounds out of range [low:cap]". -/
  | sliceOutOfRange (low cap : Nat)
  /-- The panic raised by `log.Panic` and `log.Panicf` after printing. -/
  | logged
deriving DecidableEq, Repr

/-- The index expression `xs[0]` on a slice. -/
def index0 (xs : List String) : Except Panic String :=
  match xs with
  | [] => .error (.indexOutOfRange 0 0)
  | x :: _ => .ok x

/-- The slice expression `xs[1:]` on a slice whose capacity is its length
(a slice literal or the nil slice). -/
def sliceFrom1 (xs : List String) : Except Panic (List String) :=
  if 1 ≤ xs.length then .ok (xs.drop 1) else .error (.sliceOutOfRange 1 xs.length)

/-! ## Events -/

/-- Errors returned by `Cmd.Run` and `Cmd.CombinedOutput`. -/
inductive ExecError where
  /-- The command could not be started. -/
  | startFailed (msg : String)
  /-- An `*exec.ExitError`: the process ran and exited with a non-zero status. -/
  | exitStatus (status : Nat)
  /-- The error "exec: already started". -/
  | alreadyStarted
  /-- The error "exec: Stdout already set". -/
  | stdoutAlreadySet
deriving DecidableEq, Repr

/-- An argument of a `log` call. -/
inductive Arg where
  | str (s : String)
  | bytes (b : List Byte)
  | strs (l : List String)
  | cmds (c : displayCommands)
  | err (msg : String)
  | execErr (e : ExecError)
deriving DecidableEq, Repr

/-- Which function of package `log` is called. `Fatalf` prints and then calls
`os.Exit(1)`; `Panic` and `Panicf` print and then panic. -/
inductive LogKind where
  | Printf | Fatalf | Panicf | Panic
deriving DecidableEq, Repr

/-- The observable actions of the program, in the order they happen. -/
inductive Event where
  /-- A call of package `log` with its format string and arguments
  (`Panic` has no format string). -/
  | log (kind : LogKind) (format : String) (args : List Arg)
  /-- The call `os.Hostname()`. -/
  | hostname
  /-- The call `signal.Notify(sigc, os.Interrupt, os.Kill)`. -/
  | notify
  /-- The call `client.New`. -/
  | newClient
  /-- The call `cli.Connect` with the client id it sends. -/
  | connect (clientID : String)
  /-- The call `cli.Subscribe` with the topic filters it registers. -/
  | subscribe (filters : List String)
  /-- The receive `<-sigc`: main starts to wait for a signal. -/
  | awaitSignal
  /-- The call `cli.Disconnect`. -/
  | disconnect
  /-- The deferred call `cli.Terminate`. -/
  | terminate
  /-- The program asks the operating system to run the command line `args`
  as a new process (`exec.Command` followed by the first `Run` of that `Cmd`). -/
  | spawn (args : List String)
deriving DecidableEq, Repr

/-- A trace of events, oldest first. -/
abbrev Trace := List Event

/-- How a function of the program ends. -/
inductive Outcome where
  /-- The function returned to its caller. -/
  | returned
  /-- The process was ended by `os.Exit` with this status. -/
  | exited (status : Nat)
  /-- An unrecovered panic ended the process (the Go run-time exits with status 2). -/
  | panicked (p : Panic)
  /-- Only for `main`: it waits for a signal that never arrives. -/
  | blocked
deriving DecidableEq, Repr

/-- The command lines of the `spawn` events of a trace, in order. -/
def spawned (tr : Trace) : List (List String) :=
  tr.filterMap fun e =>
    match e with
    | .spawn args => some args
    | _ => none

/-! ## The model of `os/exec` -/

/-- What the operating system does with one request to run a command line. -/
inductive ProcResult where
  /-- No process can be started (for instance the executable is not found). -/
  | cannotStart (msg : String)
  /-- The process runs, writes `output` to its standard output and standard
  error taken together, and exits with `status`. -/
  | exits (status : Nat) (output : List Byte)
deriving DecidableEq, Repr

/-- The operating system as seen by the program: the result of the request
number `n` (counted from 0) to run a command line. -/
abbrev Host := Nat → List String → ProcResult

/-- Life cycle of an `exec.Cmd`. The package documents that a `Cmd` cannot be
reused after its `Run` or `CombinedOutput` was called: a `Cmd` that was started
answers "exec: already started", one that could not be started keeps its error. -/
inductive CmdState where
  | fresh
  | failed (msg : String)
  | started
deriving DecidableEq, Repr

/-- The part of `exec.Cmd` the program uses. -/
structure Cmd where
  Args : List String
  /-- True when `Stdout` and `Stderr` are set (to the buffer of `CombinedOutput`);
  when they are nil, `Run` connects the process to the null device. -/
  capture : Bool
  /-- Contents of the buffer `Stdout` and `Stderr` point to. -/
  buffer : List Byte
  state : CmdState
deriving DecidableEq, Repr

/-- The call `exec.Command(name, arg...)`: `Args` holds `name` followed by `arg`. -/
def Command (name : String) (arg : List String) : Cmd :=
  { Args := name :: arg, capture := false, buffer := [], state := .fresh }

/-- The method `Cmd.Run`: starts the command and waits for it. The error is nil
exactly when the command starts and exits with status 0. The output of the
process reaches the buffer only when `Stdout` and `Stderr` were set before.
A fresh `Cmd` makes one request to the operating system (event `spawn`),
whatever its result; a `Cmd` that was run before makes none and starts
nothing. -/
def Cmd.Run (host : Host) (c : Cmd) (tr : Trace) : Option ExecError × Cmd × Trace :=
  match c.state with
  | .started => (some .alreadyStarted, c, tr)
  | .failed msg => (some (.startFailed msg), c, tr)
  | .fresh =>
    match host (spawned tr).length c.Args with
    | .cannotStart msg =>
      (some (.startFailed msg), { c with state := .failed msg }, tr ++ [.spawn c.Args])
    | .exits status output =>
      (if status = 0 then none else some (.exitStatus status),
        { c with state := .started, buffer := if c.capture then c.buffer ++ output else c.buffer },
        tr ++ [.spawn c.Args])

/-- The method `Cmd.CombinedOutput`: refuses a `Cmd` whose `Stdout` is set,
points `Stdout` and `Stderr` to a new buffer, calls `Run`, and returns the
buffer together with the error of `Run`. -/
def Cmd.CombinedOutput (host : Host) (c : Cmd) (tr : Trace) :
    List Byte × Option ExecError × Cmd × Trace :=
  if c.capture then ([], some .stdoutAlreadySet, c, tr)
  else
    let c1 := { c with capture := true, buffer := [] }
    match Cmd.Run host c1 tr with
    | (err, c2, tr2) => (c2.buffer, err, c2, tr2)

/-- Whether a request to run a command ended well: the process started and
exited with status 0. -/
def succeeds (r : ProcResult) : Bool :=
  match r with
  | .exits 0 _ => true
  | _ => false

/-- The error `Run` reports for a result that is not a success. -/
def errorOf (r : ProcResult) : ExecError :=
  match r with
  | .cannotStart msg => .startFailed msg
  | .exits status _ => .exitStatus status

/-! ## The model of `fmt` -/

/-- The call `fmt.Sprintf("%s", payload)` on a `[]byte`: the string that has
exactly the bytes of `payload`. -/
def sprintfBytes (payload : List Byte) : List Byte :=
  payload

/-- Expansion of a format string, for the verb `%s` applied to a string
argument (the only case whose text is needed here); anything else is copied. -/
def sprintfChars : List Char → List Arg → List Char
  | '%' :: 's' :: rest, .str s :: args => s.toList ++ sprintfChars rest args
  | c :: rest, args => c :: sprintfChars rest args
  | [], _ => []

/-- The text of a log message whose verbs are all `%s` on strings. -/
def sprintf (format : String) (args : List Arg) : String :=
  String.mk (sprintfChars format.toList args)

/-! ## `analyzePayload` (main.go, lines 106-128) -/

/-- The three arms of the `switch` in `analyzePayload`. -/
inductive Branch where
  | on
  | off
  | default
deriving DecidableEq, Repr

/-- The arm taken by `switch t := fmt.Sprintf("%s", payload); t` (lines 111-118):
`case "on"`, `case "off"`, `default`. -/
def switchBranch (payload : List Byte) : Branch :=
  let t := sprintfBytes payload
  if t = goString "on" then .on
  else if t = goString "off" then .off
  else .default

/-- The expression `exec.Command(line[0], line[1:]...)` of lines 113 and 115.
Go does not fix the order in which the index operand and the slice operand
are evaluated; the compiled program checks the bounds of `line[1:]` first,
which is the order taken here. The two orders give the same result on every
non-empty line and differ only in which run-time error an empty line raises. -/
def commandOf (line : List String) : Except Panic Cmd :=
  match sliceFrom1 line with
  | .error p => .error p
  | .ok arg =>
    match index0 line with
    | .error p => .error p
    | .ok name => .ok (Command name arg)

/-- Lines 120-126 for a non-nil `cmd`: log, run, and on an error of `Run` call
`CombinedOutput` on the same `cmd` and pass its output to `log.Fatalf`,
which ends the process with status 1. -/
def runAndReport (host : Host) (cmd : Cmd) (tr : Trace) : Trace × Outcome :=
  let tr1 := tr ++ [.log .Printf "executing %s" [.strs cmd.Args]]
  match Cmd.Run host cmd tr1 with
  | (none, _, tr2) => (tr2, .returned)
  | (some err, cmd2, tr2) =>
    match Cmd.CombinedOutput host cmd2 tr2 with
    | (output, _, _, tr3) =>
      (tr3 ++ [.log .Fatalf "Error running command: %v\n%s" [.execErr err, .bytes output]],
        .exited 1)

/-- The handler `analyzePayload(topic, payload)`, run on a process whose
`osType` is given and whose trace so far is `tr`. -/
def analyzePayload (host : Host) (osType : String) (topic payload : List Byte) (tr : Trace) :
    Trace × Outcome :=
  let tr1 := tr ++ [.log .Printf "got: [t] %s  [m] %s\n" [.bytes topic, .bytes payload]]
  match switchBranch payload with
  | .on =>
    match commandOf (mapIndex commands osType).OnCommand with
    | .error p => (tr1, .panicked p)
    | .ok cmd => runAndReport host cmd tr1
  | .off =>
    match commandOf (mapIndex commands osType).OffCommand with
    | .error p => (tr1, .panicked p)
    | .ok cmd => runAndReport host cmd tr1
  | .default =>
    (tr1 ++ [.log .Printf "Unknown payload [%s], ignoring" [.bytes payload]], .returned)

/-- The MQTT client hands the inbound messages to the handler one after
another; a handler call that ends the process ends the delivery. -/
def deliver (host : Host) (osType : String) :
    List (List Byte × List Byte) → Trace → Trace × Outcome
  | [], tr => (tr, .returned)
  | (topic, payload) :: rest, tr =>
    match analyzePayload host osType topic payload tr with
    | (tr1, .returned) => deliver host osType rest tr1
    | (tr1, o) => (tr1, o)

/-! ## `main` (main.go, lines 24-104) -/

/-- Everything `main` reads from outside the program. -/
structure Env where
  /-- The value of `runtime.GOOS`. -/
  osType : String
  /-- The result of `os.Hostname()`. -/
  hostname : Except String String
  /-- The result of `os.Getpid()`. -/
  pid : Nat
  /-- The error returned by `cli.Connect`, if any. -/
  connectErr : Option String
  /-- The error returned by `cli.Subscribe`, if any. -/
  subscribeErr : Option String
  /-- The messages (topic, payload) the broker delivers while `main` waits. -/
  inbound : List (List Byte × List Byte)
  /-- Whether a termination signal arrives on `sigc`. -/
  signal : Bool
  /-- The error returned by `cli.Disconnect`, if any. -/
  disconnectErr : Option String
  /-- The operating system running the spawned commands. -/
  host : Host

/-- The function `main`. The deferred `cli.Terminate()` runs when `main`
returns or panics after line 63, not when the process is ended by `os.Exit`
or by a handler. The inbound messages are handled while `main` waits on
`sigc`. The `ErrorHandler` closure, which the client calls on its own
asynchronous errors, is not part of this sequential model. -/
def main (env : Env) : Trace × Outcome :=
  match mapLookup commands env.osType with
  | none => ([.log .Fatalf "Unsupported OS %s - exiting." [.str env.osType]], .exited 1)
  | some _ =>
    let tr1 : Trace :=
      [.log .Printf "Using commands for %s: %#v"
          [.str env.osType, .cmds (mapIndex commands env.osType)],
        .hostname]
    match env.hostname with
    | .error herr =>
      (tr1 ++ [.log .Panicf "Couldn't determine my hostname: %v" [.err herr]], .panicked .logged)
    | .ok hostname =>
      let clientID := "xset-listener-" ++ hostname ++ "-" ++ toString env.pid
      let tr2 := tr1 ++
        [.log .Printf "Starting up mqtt listener with clientid [%s]" [.str clientID],
          .notify, .newClient, .connect clientID]
      match env.connectErr with
      | some err => (tr2 ++ [.log .Panic "" [.err err], .terminate], .panicked .logged)
      | none =>
        let tr3 := tr2 ++ [.subscribe ["home/monitors/all", "home/monitors/myhost"]]
        match env.subscribeErr with
        | some err => (tr3 ++ [.log .Panic "" [.err err], .terminate], .panicked .logged)
        | none =>
          match deliver env.host env.osType env.inbound (tr3 ++ [.awaitSignal]) with
          | (tr4, .returned) =>
            if env.signal then
              match env.disconnectErr with
              | some err =>
                (tr4 ++ [.disconnect, .log .Panic "" [.err err], .terminate], .panicked .logged)
              | none => (tr4 ++ [.disconnect, .terminate], .returned)
            else (tr4, .blocked)
          | (tr4, o) => (tr4, o)

/-- The interactions of `main` with the broker connection. -/
inductive BrokerAction where
  | connect
  | subscribe
  | awaitSignal
  | disconnect
deriving DecidableEq, Repr

/-- The broker actions of a trace, in order. -/
def brokerActions (tr : Trace) : List BrokerAction :=
  tr.filterMap fun e =>
    match e with
    | .connect _ => some .connect
    | .subscribe _ => some .subscribe
    | .awaitSignal => some .awaitSignal
    | .disconnect => some .disconnect
    | _ => none

/-- The events that reach out of the process to the network or the host name:
everything but log output. -/
def networkActions (tr : Trace) : Trace :=
  tr.filter fun e =>
    match e with
    | .log _ _ _ => false
    | _ => true

/-! ## Reference notions used to state the properties -/

/-- The command line a payload asks for, given the table entry of the
platform: the on-command for "on", the off-command for "off", none otherwise. -/
def requested (c : displayCommands) (payload : List Byte) : Option (List String) :=
  if payload = goString "on" then some c.OnCommand
  else if payload = goString "off" then some c.OffCommand
  else none

/-- The command lines of `lines` in order, up to and including the first one
whose run fails; `n` is the number of the request made for the first of them. -/
def throughFirstFailure (host : Host) : Nat → List (List String) → List (List String)
  | _, [] => []
  | n, line :: rest =>
    line :: (if succeeds (host n line) then throughFirstFailure host (n + 1) rest else [])

/-- A run on linux in which the broker refuses the connection. -/
def refusedEnv : Env :=
  { osType := "linux"
    hostname := .ok "box"
    pid := 7
    connectErr := some "connection refused"
    subscribeErr := none
    inbound := []
    signal := true
    disconnectErr := none
    host := fun _ _ => .exits 0 [] }

/-! ## Basic facts -/

theorem goString_on : goString "on" = [0x6F, 0x6E] := by decide

theorem goString_off : goString "off" = [0x6F, 0x66, 0x66] := by decide

theorem mapLookup_darwin :
    mapLookup commands "darwin" =
      some { OnCommand := ["caffeinate", "-u", "-t", "2"],
             OffCommand := ["pmset", "displaysleepnow"] } := by
  decide

theorem mapLookup_linux :
    mapLookup commands "linux" =
      some { OnCommand := ["xset", "dpms", "force", "on"],
             OffCommand := ["xset", "dpms", "force", "off"] } := by
  decide

theorem mapLookup_other (k : String) (hd : k ≠ "darwin") (hl : k ≠ "linux") :
    mapLookup commands k = none := by
  have h1 : (k == "darwin") = false := beq_eq_false_iff_ne.mpr hd
  have h2 : (k == "linux") = false := beq_eq_false_iff_ne.mpr hl
  simp only [mapLookup, commands, List.lookup, h1, h2]

theorem mapLookup_some_cases (k : String) (c : displayCommands)
    (h : mapLookup commands k = some c) :
    (k = "darwin" ∧
        c = { OnCommand := ["caffeinate", "-u", "-t", "2"],
              OffCommand := ["pmset", "displaysleepnow"] }) ∨
      (k = "linux" ∧
        c = { OnCommand := ["xset", "dpms", "force", "on"],
              OffCommand := ["xset", "dpms", "force", "off"] }) := by
  by_cases hd : k = "darwin"
  · subst hd
    rw [mapLookup_darwin] at h
    exact Or.inl ⟨rfl, (Option.some.inj h).symm⟩
  · by_cases hl : k = "linux"
    · subst hl
      rw [mapLookup_linux] at h
      exact Or.inr ⟨rfl, (Option.some.inj h).symm⟩
    · rw [mapLookup_other k hd hl] at h
      cases h

theorem mapIndex_of_lookup (k : String) (c : displayCommands)
    (h : mapLookup commands k = some c) : mapIndex commands k = c := by
  simp [mapIndex, h]

theorem mapIndex_of_missing (k : String) (h : mapLookup commands k = none) :
    mapIndex commands k = displayCommands.zero := by
  simp [mapIndex, h]

theorem spawned_append (a b : Trace) : spawned (a ++ b) = spawned a ++ spawned b := by
  simp [spawned, List.filterMap_append]

theorem spawned_log (tr : Trace) (kind : LogKind) (format : String) (args : List Arg) :
    spawned (tr ++ [.log kind format args]) = spawned tr := by
  simp [spawned, List.filterMap_append]

theorem runAndReport_success (host : Host) (name : String) (arg : List String) (tr : Trace)
    (h : succeeds (host (spawned tr).length (name :: arg)) = true) :
    runAndReport host (Command name arg) tr =
      (tr ++ [.log .Printf "executing %s" [.strs (name :: arg)], .spawn (name :: arg)],
        .returned) := by
  unfold runAndReport Cmd.Run
  simp only [Command, spawned_log]
  cases hr : host (spawned tr).length (name :: arg) with
  | cannotStart msg => rw [hr] at h; simp [succeeds] at h
  | exits status output =>
    rw [hr] at h
    cases status with
    | zero => simp
    | succ n => simp [succeeds] at h

theorem runAndReport_failure (host : Host) (name : String) (arg : List String) (tr : Trace)
    (h : succeeds (host (spawned tr).length (name :: arg)) = false) :
    runAndReport host (Command name arg) tr =
      (tr ++ [.log .Printf "executing %s" [.strs (name :: arg)], .spawn (name :: arg),
          .log .Fatalf "Error running command: %v\n%s"
            [.execErr (errorOf (host (spawned tr).length (name :: arg))), .bytes []]],
        .exited 1) := by
  unfold runAndReport Cmd.Run
  simp only [Command, spawned_log]
  cases hr : host (spawned tr).length (name :: arg) with
  | cannotStart msg => simp [Cmd.CombinedOutput, Cmd.Run, errorOf]
  | exits status output =>
    rw [hr] at h
    cases status with
    | zero => simp [succeeds] at h
    | succ n => simp [Cmd.CombinedOutput, Cmd.Run, errorOf]

theorem commandOf_cons (name : String) (arg : List String) :
    commandOf (name :: arg) = .ok (Command name arg) := by
  simp [commandOf, index0, sliceFrom1]

theorem commandOf_nil : commandOf [] = .error (.sliceOutOfRange 1 0) := by
  simp [commandOf, sliceFrom1]

theorem switchBranch_on : switchBranch (goString "on") = .on := by decide

theorem switchBranch_off : switchBranch (goString "off") = .off := by decide

theorem switchBranch_other (p : List Byte) (hon : p ≠ goString "on") (hoff : p ≠ goString "off") :
    switchBranch p = .default := by
  simp [switchBranch, sprintfBytes, hon, hoff]

theorem runAndReport_spawned (host : Host) (name : String) (arg : List String) (tr : Trace) :
    spawned (runAndReport host (Command name arg) tr).1 = spawned tr ++ [name :: arg] := by
  cases h : succeeds (host (spawned tr).length (name :: arg)) with
  | true => rw [runAndReport_success host name arg tr h]; simp [spawned, List.filterMap_append]
  | false => rw [runAndReport_failure host name arg tr h]; simp [spawned, List.filterMap_append]

theorem analyzePayload_on (host : Host) (osType : String) (topic : List Byte) (tr : Trace) :
    analyzePayload host osType topic (goString "on") tr =
      match commandOf (mapIndex commands osType).OnCommand with
      | .error p =>
        (tr ++ [.log .Printf "got: [t] %s  [m] %s\n" [.bytes topic, .bytes (goString "on")]],
          .panicked p)
      | .ok cmd =>
        runAndReport host cmd
          (tr ++ [.log .Printf "got: [t] %s  [m] %s\n" [.bytes topic, .bytes (goString "on")]]) := by
  simp only [analyzePayload, switchBranch_on]

theorem analyzePayload_off (host : Host) (osType : String) (topic : List Byte) (tr : Trace) :
    analyzePayload host osType topic (goString "off") tr =
      match commandOf (mapIndex commands osType).OffCommand with
      | .error p =>
        (tr ++ [.log .Printf "got: [t] %s  [m] %s\n" [.bytes topic, .bytes (goString "off")]],
          .panicked p)
      | .ok cmd =>
        runAndReport host cmd
          (tr ++ [.log .Printf "got: [t] %s  [m] %s\n" [.bytes topic, .bytes (goString "off")]]) := by
  simp only [analyzePayload, switchBranch_off]

theorem analyzePayload_other (host : Host) (osType : String) (topic payload : List Byte)
    (tr : Trace) (hon : payload ≠ goString "on") (hoff : payload ≠ goString "off") :
    analyzePayload host osType topic payload tr =
      (tr ++ [.log .Printf "got: [t] %s  [m] %s\n" [.bytes topic, .bytes payload],
          .log .Printf "Unknown payload [%s], ignoring" [.bytes payload]],
        .returned) := by
  simp only [analyzePayload, switchBranch_other payload hon hoff, List.append_assoc,
    List.singleton_append]

theorem commandOf_ok_shape (line : List String) (cmd : Cmd) (h : commandOf line = .ok cmd) :
    ∃ name arg, line = name :: arg ∧ cmd = Command name arg := by
  cases line with
  | nil => rw [commandOf_nil] at h; cases h
  | cons name arg =>
    rw [commandOf_cons] at h
    exact ⟨name, arg, rfl, by cases h; rfl⟩

theorem requested_on (c : displayCommands) : requested c (goString "on") = some c.OnCommand := by
  simp [requested]

theorem requested_off (c : displayCommands) :
    requested c (goString "off") = some c.OffCommand := by
  have h : goString "off" ≠ goString "on" := by decide
  simp [requested, h]

/-- One handler call on a platform of the table: the command asked for and the way it ends. -/
theorem analyzePayload_supported (host : Host) (osType : String) (c : displayCommands)
    (hsup : mapLookup commands osType = some c) (topic payload : List Byte) (tr : Trace) :
    (requested c payload = none →
        (analyzePayload host osType topic payload tr).2 = .returned ∧
        spawned (analyzePayload host osType topic payload tr).1 = spawned tr) ∧
      (∀ line, requested c payload = some line →
        spawned (analyzePayload host osType topic payload tr).1 = spawned tr ++ [line] ∧
        (analyzePayload host osType topic payload tr).2 =
          if succeeds (host (spawned tr).length line) then .returned else .exited 1) := by
  have hidx := mapIndex_of_lookup osType c hsup
  obtain ⟨on0, onRest, off0, offRest, hon, hoff⟩ :
      ∃ on0 onRest off0 offRest, c.OnCommand = on0 :: onRest ∧ c.OffCommand = off0 :: offRest := by
    rcases mapLookup_some_cases osType c hsup with ⟨_, h⟩ | ⟨_, h⟩
    · subst h; exact ⟨_, _, _, _, rfl, rfl⟩
    · subst h; exact ⟨_, _, _, _, rfl, rfl⟩
  by_cases h1 : payload = goString "on"
  · subst h1
    rw [requested_on]
    refine ⟨fun h => absurd h (by simp), ?_⟩
    intro line hl
    cases hl
    rw [analyzePayload_on, hidx, hon, commandOf_cons]
    simp only []
    refine ⟨by rw [runAndReport_spawned, spawned_log], ?_⟩
    cases h : succeeds (host (spawned tr).length (on0 :: onRest)) with
    | true => rw [runAndReport_success _ _ _ _ (by rw [spawned_log]; exact h)]; simp
    | false => rw [runAndReport_failure _ _ _ _ (by rw [spawned_log]; exact h)]; simp
  · by_cases h2 : payload = goString "off"
    · subst h2
      rw [requested_off]
      refine ⟨fun h => absurd h (by simp), ?_⟩
      intro line hl
      cases hl
      rw [analyzePayload_off, hidx, hoff, commandOf_cons]
      simp only []
      refine ⟨by rw [runAndReport_spawned, spawned_log], ?_⟩
      cases h : succeeds (host (spawned tr).length (off0 :: offRest)) with
      | true => rw [runAndReport_success _ _ _ _ (by rw [spawned_log]; exact h)]; simp
      | false => rw [runAndReport_failure _ _ _ _ (by rw [spawned_log]; exact h)]; simp
    · have hr : requested c payload = none := by simp [requested, h1, h2]
      rw [hr, analyzePayload_other host osType topic payload tr h1 h2]
      refine ⟨fun _ => ⟨rfl, ?_⟩, fun line h => absurd h (by simp)⟩
      simp [spawned, List.filterMap_append]

theorem deliver_cons_returned (host : Host) (osType : String) (topic payload : List Byte)
    (rest : List (List Byte × List Byte)) (tr : Trace)
    (h : (analyzePayload host osType topic payload tr).2 = .returned) :
    deliver host osType ((topic, payload) :: rest) tr =
      deliver host osType rest (analyzePayload host osType topic payload tr).1 := by
  cases hres : analyzePayload host osType topic payload tr with
  | mk tr1 o =>
    rw [hres] at h
    simp only at h
    subst h
    simp only [deliver, hres]

theorem deliver_cons_ended (host : Host) (osType : String) (topic payload : List Byte)
    (rest : List (List Byte × List Byte)) (tr : Trace)
    (h : (analyzePayload host osType topic payload tr).2 ≠ .returned) :
    deliver host osType ((topic, payload) :: rest) tr =
      analyzePayload host osType topic payload tr := by
  cases hres : analyzePayload host osType topic payload tr with
  | mk tr1 o =>
    rw [hres] at h
    cases o with
    | returned => exact absurd rfl h
    | exited status => simp only [deliver, hres]
    | panicked p => simp only [deliver, hres]
    | blocked => simp only [deliver, hres]

theorem deliver_spawned (host : Host) (osType : String) (c : displayCommands)
    (hsup : mapLookup commands osType = some c) (msgs : List (List Byte × List Byte)) :
    ∀ tr : Trace, spawned (deliver host osType msgs tr).1 =
      spawned tr ++
        throughFirstFailure host (spawned tr).length (msgs.filterMap fun m => requested c m.2) := by
  induction msgs with
  | nil => intro tr; simp [deliver, throughFirstFailure]
  | cons m rest ih =>
    intro tr
    obtain ⟨topic, payload⟩ := m
    have step := analyzePayload_supported host osType c hsup topic payload tr
    cases hr : requested c payload with
    | none =>
      obtain ⟨hret, hsp⟩ := step.1 hr
      rw [deliver_cons_returned host osType topic payload rest tr hret, ih, hsp]
      simp [List.filterMap_cons, hr]
    | some line =>
      obtain ⟨hsp, hout⟩ := step.2 line hr
      cases hs : succeeds (host (spawned tr).length line) with
      | true =>
        rw [hs] at hout
        rw [deliver_cons_returned host osType topic payload rest tr (by simpa using hout), ih, hsp]
        simp [List.filterMap_cons, hr, throughFirstFailure, hs]
      | false =>
        rw [hs] at hout
        rw [deliver_cons_ended host osType topic payload rest tr (by rw [hout]; simp), hsp]
        simp [List.filterMap_cons, hr, throughFirstFailure, hs]

theorem throughFirstFailure_all (host : Host) (hall : ∀ k line, succeeds (host k line) = true)
    (lines : List (List String)) : ∀ n, throughFirstFailure host n lines = lines := by
  induction lines with
  | nil => intro n; rfl
  | cons line rest ih => intro n; simp [throughFirstFailure, hall, ih]

theorem brokerActions_append (a b : Trace) :
    brokerActions (a ++ b) = brokerActions a ++ brokerActions b := by
  simp [brokerActions, List.filterMap_append]

theorem runAndReport_brokerActions (host : Host) (name : String) (arg : List String)
    (tr : Trace) :
    brokerActions (runAndReport host (Command name arg) tr).1 = brokerActions tr := by
  cases h : succeeds (host (spawned tr).length (name :: arg)) with
  | true =>
    rw [runAndReport_success host name arg tr h, brokerActions_append]
    simp [brokerActions]
  | false =>
    rw [runAndReport_failure host name arg tr h, brokerActions_append]
    simp [brokerActions]

theorem commandOf_run_brokerActions (host : Host) (line : List String) (tr : Trace) :
    brokerActions
        (match commandOf line with
          | .error p => (tr, Outcome.panicked p)
          | .ok cmd => runAndReport host cmd tr).1 = brokerActions tr := by
  cases line with
  | nil => rw [commandOf_nil]
  | cons name arg => rw [commandOf_cons]; exact runAndReport_brokerActions host name arg tr

/-- The handler adds no broker action to the trace. -/
theorem analyzePayload_brokerActions (host : Host) (osType : String) (topic payload : List Byte)
    (tr : Trace) :
    brokerActions (analyzePayload host osType topic payload tr).1 = brokerActions tr := by
  by_cases h1 : payload = goString "on"
  · subst h1
    rw [analyzePayload_on, commandOf_run_brokerActions, brokerActions_append]
    simp [brokerActions]
  · by_cases h2 : payload = goString "off"
    · subst h2
      rw [analyzePayload_off, commandOf_run_brokerActions, brokerActions_append]
      simp [brokerActions]
    · rw [analyzePayload_other host osType topic payload tr h1 h2, brokerActions_append]
      simp [brokerActions]

theorem deliver_brokerActions (host : Host) (osType : String)
    (msgs : List (List Byte × List Byte)) :
    ∀ tr : Trace, brokerActions (deliver host osType msgs tr).1 = brokerActions tr := by
  induction msgs with
  | nil => intro tr; rfl
  | cons m rest ih =>
    intro tr
    obtain ⟨topic, payload⟩ := m
    by_cases h : (analyzePayload host osType topic payload tr).2 = .returned
    · rw [deliver_cons_returned host osType topic payload rest tr h, ih,
        analyzePayload_brokerActions]
    · rw [deliver_cons_ended host osType topic payload rest tr h,
        analyzePayload_brokerActions]

/-! ## C1 -/

/-- C1: the switch of analyzePayload takes the on-arm exactly for the two bytes
"on", the off-arm exactly for the three bytes "off", and the default arm for
every other payload, among them "ON", the empty payload and "on " with a
trailing space; being a total function, it yields an arm for every payload. -/
theorem switchBranch_exact (p : List Byte) :
    (switchBranch p = .on ↔ p = [0x6F, 0x6E]) ∧
      (switchBranch p = .off ↔ p = [0x6F, 0x66, 0x66]) ∧
      (switchBranch p = .default ↔ (p ≠ [0x6F, 0x6E] ∧ p ≠ [0x6F, 0x66, 0x66])) ∧
      goString "on" = [0x6F, 0x6E] ∧ goString "off" = [0x6F, 0x66, 0x66] ∧
      switchBranch (goString "ON") = .default ∧
      switchBranch [] = .default ∧
      switchBranch (goString "on ") = .default := by
  refine ⟨?_, ?_, ?_, goString_on, goString_off, by decide, by decide, by decide⟩
  · unfold switchBranch sprintfBytes
    rw [goString_on, goString_off]
    by_cases h1 : p = [0x6F, 0x6E]
    · simp [h1]
    · by_cases h2 : p = [0x6F, 0x66, 0x66]
      · simp [h2]
      · simp [h1, h2]
  · unfold switchBranch sprintfBytes
    rw [goString_on, goString_off]
    by_cases h1 : p = [0x6F, 0x6E]
    · subst h1
      decide
    · by_cases h2 : p = [0x6F, 0x66, 0x66]
      · simp [h2]
      · simp [h1, h2]
  · unfold switchBranch sprintfBytes
    rw [goString_on, goString_off]
    by_cases h1 : p = [0x6F, 0x6E]
    · simp [h1]
    · by_cases h2 : p = [0x6F, 0x66, 0x66]
      · simp [h2]
      · simp [h1, h2]

/-! ## C2 -/

/-- C2: looking a platform key up in the action table succeeds exactly for
"darwin" and "linux"; an entry that is found has a non-empty OnCommand and a
non-empty OffCommand; every other key is reported as missing. -/
theorem commands_lookup (k : String) :
    ((mapLookup commands k).isSome = true ↔ (k = "darwin" ∨ k = "linux")) ∧
      (∀ c, mapLookup commands k = some c → c.OnCommand ≠ [] ∧ c.OffCommand ≠ []) ∧
      (mapLookup commands k = none ↔ (k ≠ "darwin" ∧ k ≠ "linux")) := by
  refine ⟨?_, ?_, ?_⟩
  · constructor
    · intro h
      obtain ⟨c, hc⟩ := Option.isSome_iff_exists.mp h
      rcases mapLookup_some_cases k c hc with ⟨hk, _⟩ | ⟨hk, _⟩
      · exact Or.inl hk
      · exact Or.inr hk
    · rintro (hk | hk)
      · subst hk
        decide
      · subst hk
        decide
  · intro c hc
    rcases mapLookup_some_cases k c hc with ⟨_, hc2⟩ | ⟨_, hc2⟩
    · subst hc2
      exact ⟨by simp, by simp⟩
    · subst hc2
      exact ⟨by simp, by simp⟩
  · constructor
    · intro h
      refine ⟨?_, ?_⟩
      · intro hk
        subst hk
        rw [mapLookup_darwin] at h
        cases h
      · intro hk
        subst hk
        rw [mapLookup_linux] at h
        cases h
    · rintro ⟨hd, hl⟩
      exact mapLookup_other k hd hl

/-- C2 at the key "linux": the entry is found and both its command lines are non-empty. -/
theorem commands_lookup_witness :
    mapLookup commands "linux" =
        some { OnCommand := ["xset", "dpms", "force", "on"],
               OffCommand := ["xset", "dpms", "force", "off"] } ∧
      (["xset", "dpms", "force", "on"] ≠ ([] : List String) ∧
        ["xset", "dpms", "force", "off"] ≠ ([] : List String)) :=
  ⟨mapLookup_linux, (commands_lookup "linux").2.1 _ mapLookup_linux⟩

/-! ## C3 -/

/-- C3: for every topic, on linux the payload "on" resolves to the program xset
with arguments dpms force on, and on darwin the payload "off" resolves to
pmset displaysleepnow; the handler asks for exactly that command line, and
when the process exits with status 0 the handler returns normally. -/
theorem analyzePayload_scenarios (host : Host) (topic : List Byte) (tr : Trace) :
    commandOf (mapIndex commands "linux").OnCommand
        = .ok (Command "xset" ["dpms", "force", "on"]) ∧
      (Command "xset" ["dpms", "force", "on"]).Args = ["xset", "dpms", "force", "on"] ∧
      spawned (analyzePayload host "linux" topic (goString "on") tr).1
        = spawned tr ++ [["xset", "dpms", "force", "on"]] ∧
      commandOf (mapIndex commands "darwin").OffCommand
        = .ok (Command "pmset" ["displaysleepnow"]) ∧
      (Command "pmset" ["displaysleepnow"]).Args = ["pmset", "displaysleepnow"] ∧
      spawned (analyzePayload host "darwin" topic (goString "off") tr).1
        = spawned tr ++ [["pmset", "displaysleepnow"]] ∧
      (∀ output, host (spawned tr).length ["xset", "dpms", "force", "on"] = .exits 0 output →
        (analyzePayload host "linux" topic (goString "on") tr).2 = .returned) ∧
      (∀ output, host (spawned tr).length ["pmset", "displaysleepnow"] = .exits 0 output →
        (analyzePayload host "darwin" topic (goString "off") tr).2 = .returned) := by
  have hl : (mapIndex commands "linux").OnCommand = ["xset", "dpms", "force", "on"] := by
    rw [mapIndex_of_lookup _ _ mapLookup_linux]
  have hd : (mapIndex commands "darwin").OffCommand = ["pmset", "displaysleepnow"] := by
    rw [mapIndex_of_lookup _ _ mapLookup_darwin]
  refine ⟨?_, rfl, ?_, ?_, rfl, ?_, ?_, ?_⟩
  · rw [hl, commandOf_cons]
  · rw [analyzePayload_on, hl, commandOf_cons]
    simp only [runAndReport_spawned, spawned_log]
  · rw [hd, commandOf_cons]
  · rw [analyzePayload_off, hd, commandOf_cons]
    simp only [runAndReport_spawned, spawned_log]
  · intro output h
    rw [analyzePayload_on, hl, commandOf_cons]
    simp only []
    rw [runAndReport_success]
    rw [spawned_log, h]
    rfl
  · intro output h
    rw [analyzePayload_off, hd, commandOf_cons]
    simp only []
    rw [runAndReport_success]
    rw [spawned_log, h]
    rfl

/-- C3 on a host where every process exits with status 0: both scenarios end
with the handler returning. -/
theorem analyzePayload_scenarios_witness :
    (analyzePayload (fun _ _ => .exits 0 []) "linux" (goString "home/monitors/all")
        (goString "on") []).2 = .returned ∧
      (analyzePayload (fun _ _ => .exits 0 []) "darwin" (goString "home/monitors/myhost")
        (goString "off") []).2 = .returned :=
  ⟨(analyzePayload_scenarios (fun _ _ => .exits 0 []) (goString "home/monitors/all") []).2.2.2.2.2.2.1
      [] rfl,
    (analyzePayload_scenarios (fun _ _ => .exits 0 []) (goString "home/monitors/myhost") []).2.2.2.2.2.2.2
      [] rfl⟩

/-! ## C4 -/

/-- C4: for every platform, topic and payload other than "on" and "off", the
handler only writes its two log lines, asks for no process, returns normally,
and the delivery goes on with the messages that follow. -/
theorem analyzePayload_unknown (host : Host) (osType : String) (topic payload : List Byte)
    (tr : Trace) (hon : payload ≠ goString "on") (hoff : payload ≠ goString "off") :
    analyzePayload host osType topic payload tr =
        (tr ++ [.log .Printf "got: [t] %s  [m] %s\n" [.bytes topic, .bytes payload],
            .log .Printf "Unknown payload [%s], ignoring" [.bytes payload]],
          .returned) ∧
      spawned (analyzePayload host osType topic payload tr).1 = spawned tr ∧
      ∀ rest, deliver host osType ((topic, payload) :: rest) tr =
        deliver host osType rest (analyzePayload host osType topic payload tr).1 := by
  have h := analyzePayload_other host osType topic payload tr hon hoff
  refine ⟨h, ?_, ?_⟩
  · rw [h]
    simp [spawned, List.filterMap_append]
  · intro rest
    simp only [deliver, h]

/-- C4 at the payload "toggle" on linux. -/
theorem analyzePayload_unknown_witness :
    analyzePayload (fun _ _ => .exits 0 []) "linux" [] (goString "toggle") [] =
        ([.log .Printf "got: [t] %s  [m] %s\n" [.bytes [], .bytes (goString "toggle")],
            .log .Printf "Unknown payload [%s], ignoring" [.bytes (goString "toggle")]],
          .returned) ∧
      spawned (analyzePayload (fun _ _ => .exits 0 []) "linux" [] (goString "toggle") []).1
        = spawned [] :=
  have h := analyzePayload_unknown (fun _ _ => .exits 0 []) "linux" [] (goString "toggle") []
    (by decide) (by decide)
  ⟨h.1, h.2.1⟩

/-! ## C5 -/

/-- C5: when the detected platform key is not in the action table, main only
logs the fatal diagnostic "Unsupported OS <key> - exiting.", whose text
contains the key, and the process ends with exit status 1; the trace holds no
host name lookup, client creation, connect or subscribe. -/
theorem main_unsupported (env : Env) (h : mapLookup commands env.osType = none) :
    main env =
        ([.log .Fatalf "Unsupported OS %s - exiting." [.str env.osType]], .exited 1) ∧
      (∃ status, (main env).2 = .exited status ∧ status ≠ 0) ∧
      sprintf "Unsupported OS %s - exiting." [.str env.osType] =
        "Unsupported OS " ++ env.osType ++ " - exiting." ∧
      env.osType.toList <:+: (sprintf "Unsupported OS %s - exiting." [.str env.osType]).toList ∧
      networkActions (main env).1 = [] ∧
      brokerActions (main env).1 = [] := by
  have hm : main env =
      ([.log .Fatalf "Unsupported OS %s - exiting." [.str env.osType]], .exited 1) := by
    simp only [main, h]
  have hs : sprintf "Unsupported OS %s - exiting." [.str env.osType] =
      "Unsupported OS " ++ env.osType ++ " - exiting." := by
    apply String.ext
    simp [sprintf, sprintfChars]
  refine ⟨hm, ⟨1, by rw [hm], by decide⟩, hs, ?_, ?_, ?_⟩
  · rw [hs]
    refine ⟨"Unsupported OS ".toList, " - exiting.".toList, ?_⟩
    simp [String.toList]
  · rw [hm]
    rfl
  · rw [hm]
    rfl

/-- C5 on the platform key "plan9". -/
theorem main_unsupported_witness :
    main { osType := "plan9", hostname := .ok "box", pid := 7, connectErr := none,
           subscribeErr := none, inbound := [], signal := true, disconnectErr := none,
           host := fun _ _ => .exits 0 [] } =
      ([.log .Fatalf "Unsupported OS %s - exiting." [.str "plan9"]], .exited 1) :=
  (main_unsupported
    { osType := "plan9", hostname := .ok "box", pid := 7, connectErr := none,
      subscribeErr := none, inbound := [], signal := true, disconnectErr := none,
      host := fun _ _ => .exits 0 [] }
    (mapLookup_other "plan9" (by decide) (by decide))).1

/-! ## C6 -/

/-- C6: when the payload is "on" or "off", its command line resolves, and the
run of that command fails (it cannot be started, or it exits with a non-zero
status), the handler logs a fatal diagnostic as its last event and the process
ends with exit status 1; the handler does not return, and no later message is
handled. -/
theorem analyzePayload_command_failure (host : Host) (osType : String)
    (topic payload : List Byte) (tr : Trace) (cmd : Cmd)
    (hcmd : (payload = goString "on" ∧
          commandOf (mapIndex commands osType).OnCommand = .ok cmd) ∨
        (payload = goString "off" ∧
          commandOf (mapIndex commands osType).OffCommand = .ok cmd))
    (hfail : (∃ msg, host (spawned tr).length cmd.Args = .cannotStart msg) ∨
        (∃ status output, status ≠ 0 ∧
          host (spawned tr).length cmd.Args = .exits status output)) :
    (∃ err output,
        (analyzePayload host osType topic payload tr).1 =
          tr ++ [.log .Printf "got: [t] %s  [m] %s\n" [.bytes topic, .bytes payload],
            .log .Printf "executing %s" [.strs cmd.Args],
            .spawn cmd.Args,
            .log .Fatalf "Error running command: %v\n%s" [.execErr err, .bytes output]]) ∧
      (analyzePayload host osType topic payload tr).2 = .exited 1 ∧
      (analyzePayload host osType topic payload tr).2 ≠ .returned ∧
      ∀ rest, deliver host osType ((topic, payload) :: rest) tr =
        analyzePayload host osType topic payload tr := by
  have key : ∀ name arg, cmd = Command name arg →
      runAndReport host cmd
          (tr ++ [.log .Printf "got: [t] %s  [m] %s\n" [.bytes topic, .bytes payload]]) =
        (tr ++ [.log .Printf "got: [t] %s  [m] %s\n" [.bytes topic, .bytes payload]] ++
            [.log .Printf "executing %s" [.strs (name :: arg)], .spawn (name :: arg),
              .log .Fatalf "Error running command: %v\n%s"
                [.execErr (errorOf (host (spawned tr).length (name :: arg))), .bytes []]],
          .exited 1) := by
    intro name arg hc
    subst hc
    have hargs : (Command name arg).Args = name :: arg := rfl
    rw [hargs] at hfail
    have := runAndReport_failure host name arg
      (tr ++ [.log .Printf "got: [t] %s  [m] %s\n" [.bytes topic, .bytes payload]])
    rw [spawned_log] at this
    apply this
    rcases hfail with ⟨msg, hm⟩ | ⟨status, output, hs, hm⟩
    · rw [hm]; rfl
    · rw [hm]
      cases status with
      | zero => exact absurd rfl hs
      | succ n => rfl
  have main : ∃ name arg, cmd = Command name arg ∧
      analyzePayload host osType topic payload tr =
        (tr ++ [.log .Printf "got: [t] %s  [m] %s\n" [.bytes topic, .bytes payload]] ++
            [.log .Printf "executing %s" [.strs (name :: arg)], .spawn (name :: arg),
              .log .Fatalf "Error running command: %v\n%s"
                [.execErr (errorOf (host (spawned tr).length (name :: arg))), .bytes []]],
          .exited 1) := by
    rcases hcmd with ⟨hp, hc⟩ | ⟨hp, hc⟩
    · obtain ⟨name, arg, _, hcmd2⟩ := commandOf_ok_shape _ _ hc
      refine ⟨name, arg, hcmd2, ?_⟩
      subst hp
      rw [analyzePayload_on, hc]
      exact key name arg hcmd2
    · obtain ⟨name, arg, _, hcmd2⟩ := commandOf_ok_shape _ _ hc
      refine ⟨name, arg, hcmd2, ?_⟩
      subst hp
      rw [analyzePayload_off, hc]
      exact key name arg hcmd2
  obtain ⟨name, arg, hc, h⟩ := main
  subst hc
  refine ⟨⟨errorOf (host (spawned tr).length (name :: arg)), [], ?_⟩, ?_, ?_, ?_⟩
  · rw [h]
    simp [Command]
  · rw [h]
  · rw [h]
    simp
  · intro rest
    simp only [deliver, h]

/-- C6 on linux with payload "on" when xset exits with status 1. -/
theorem analyzePayload_command_failure_witness :
    (analyzePayload (fun _ _ => .exits 1 []) "linux" [] (goString "on") []).2 = .exited 1 ∧
      ∀ rest, deliver (fun _ _ => .exits 1 []) "linux" (([], goString "on") :: rest) [] =
        analyzePayload (fun _ _ => .exits 1 []) "linux" [] (goString "on") [] :=
  have h := analyzePayload_command_failure (fun _ _ => .exits 1 []) "linux" [] (goString "on") []
    (Command "xset" ["dpms", "force", "on"])
    (Or.inl ⟨rfl, by rw [mapIndex_of_lookup _ _ mapLookup_linux, commandOf_cons]⟩)
    (Or.inr ⟨1, [], by decide, rfl⟩)
  ⟨h.2.1, h.2.2.2⟩

/-! ## C7 -/

/-- C7 (the code departs from the claim): on linux, payload "on", when xset
writes "unable to open display" and exits with status 1, the output handed to
the fatal log is empty, not the text the failed process wrote: the first Run
sent it to the null device and CombinedOutput cannot run the Cmd again. -/
theorem analyzePayload_output_lost :
    analyzePayload (fun _ _ => .exits 1 (goString "unable to open display")) "linux"
        (goString "home/monitors/all") (goString "on") [] =
      ([.log .Printf "got: [t] %s  [m] %s\n"
            [.bytes (goString "home/monitors/all"), .bytes (goString "on")],
          .log .Printf "executing %s" [.strs ["xset", "dpms", "force", "on"]],
          .spawn ["xset", "dpms", "force", "on"],
          .log .Fatalf "Error running command: %v\n%s"
            [.execErr (.exitStatus 1), .bytes []]],
        .exited 1) ∧
      goString "unable to open display" ≠ [] := by
  refine ⟨?_, by decide⟩
  rw [analyzePayload_on, mapIndex_of_lookup _ _ mapLookup_linux, commandOf_cons]
  simp only []
  rw [runAndReport_failure (fun _ _ => .exits 1 (goString "unable to open display")) "xset"
    ["dpms", "force", "on"] _ rfl]
  rfl

/-! ## C8 -/

/-- C8: on a platform of the table, the broker actions of every run of main
form an initial part of connect, subscribe, wait for the signal, disconnect,
each at most once: subscribe happens only when connect returned no error,
disconnect only when subscribe returned no error and the signal arrived, and
an error of connect or of subscribe ends the process by a panic with that
call as the last broker action. The deferred Terminate of the client, which
runs while the panic unwinds, is an event of its own and not one of the four
broker actions. -/
theorem main_broker_order (env : Env) (hsup : mapLookup commands env.osType ≠ none) :
    brokerActions (main env).1 <+: [.connect, .subscribe, .awaitSignal, .disconnect] ∧
      (BrokerAction.subscribe ∈ brokerActions (main env).1 → env.connectErr = none) ∧
      (BrokerAction.disconnect ∈ brokerActions (main env).1 →
        env.connectErr = none ∧ env.subscribeErr = none ∧ env.signal = true ∧
        brokerActions (main env).1 = [.connect, .subscribe, .awaitSignal, .disconnect]) ∧
      (BrokerAction.connect ∈ brokerActions (main env).1 → env.connectErr ≠ none →
        brokerActions (main env).1 = [.connect] ∧ (main env).2 = .panicked .logged) ∧
      (BrokerAction.subscribe ∈ brokerActions (main env).1 → env.subscribeErr ≠ none →
        brokerActions (main env).1 = [.connect, .subscribe] ∧
        (main env).2 = .panicked .logged) := by
  obtain ⟨c, hc⟩ := Option.ne_none_iff_exists'.mp hsup
  cases hh : env.hostname with
  | error herr =>
    have hb : brokerActions (main env).1 = [] := by
      simp [main, hc, hh, brokerActions]
    rw [hb]
    simp
  | ok hostname =>
    cases hce : env.connectErr with
    | some err =>
      have hb : brokerActions (main env).1 = [.connect] := by
        simp [main, hc, hh, hce, brokerActions]
      have ho : (main env).2 = .panicked .logged := by
        simp [main, hc, hh, hce]
      rw [hb, ho]
      simp
    | none =>
      cases hse : env.subscribeErr with
      | some err =>
        have hb : brokerActions (main env).1 = [.connect, .subscribe] := by
          simp [main, hc, hh, hce, hse, brokerActions]
        have ho : (main env).2 = .panicked .logged := by
          simp [main, hc, hh, hce, hse]
        rw [hb, ho]
        simp
      | none =>
        have hd := deliver_brokerActions env.host env.osType env.inbound
          ([.log .Printf "Using commands for %s: %#v"
                [.str env.osType, .cmds (mapIndex commands env.osType)],
              .hostname] ++
            [.log .Printf "Starting up mqtt listener with clientid [%s]"
                [.str ("xset-listener-" ++ hostname ++ "-" ++ toString env.pid)],
              .notify, .newClient,
              .connect ("xset-listener-" ++ hostname ++ "-" ++ toString env.pid)] ++
            [.subscribe ["home/monitors/all", "home/monitors/myhost"]] ++ [.awaitSignal])
        have hd2 : brokerActions
            (deliver env.host env.osType env.inbound
              ([.log .Printf "Using commands for %s: %#v"
                    [.str env.osType, .cmds (mapIndex commands env.osType)],
                  .hostname] ++
                [.log .Printf "Starting up mqtt listener with clientid [%s]"
                    [.str ("xset-listener-" ++ hostname ++ "-" ++ toString env.pid)],
                  .notify, .newClient,
                  .connect ("xset-listener-" ++ hostname ++ "-" ++ toString env.pid)] ++
                [.subscribe ["home/monitors/all", "home/monitors/myhost"]] ++
                [.awaitSignal])).1 = [.connect, .subscribe, .awaitSignal] := by
          rw [hd]
          simp [brokerActions]
        cases hres : deliver env.host env.osType env.inbound
            ([.log .Printf "Using commands for %s: %#v"
                  [.str env.osType, .cmds (mapIndex commands env.osType)],
                .hostname] ++
              [.log .Printf "Starting up mqtt listener with clientid [%s]"
                  [.str ("xset-listener-" ++ hostname ++ "-" ++ toString env.pid)],
                .notify, .newClient,
                .connect ("xset-listener-" ++ hostname ++ "-" ++ toString env.pid)] ++
              [.subscribe ["home/monitors/all", "home/monitors/myhost"]] ++
              [.awaitSignal]) with
        | mk tr4 o =>
          rw [hres] at hd2
          simp only at hd2
          have hmain : main env =
              match (tr4, o) with
              | (tr4, .returned) =>
                if env.signal then
                  match env.disconnectErr with
                  | some err =>
                    (tr4 ++ [.disconnect, .log .Panic "" [.err err], .terminate],
                      .panicked .logged)
                  | none => (tr4 ++ [.disconnect, .terminate], .returned)
                else (tr4, .blocked)
              | (tr4, o) => (tr4, o) := by
            simp only [main, hc, hh, hce, hse, hres]
          cases o with
          | returned =>
            cases hsig : env.signal with
            | false =>
              have hb : brokerActions (main env).1 = [.connect, .subscribe, .awaitSignal] := by
                rw [hmain]; simp [hsig, hd2]
              rw [hb]
              simp
            | true =>
              have hb : brokerActions (main env).1 =
                  [.connect, .subscribe, .awaitSignal, .disconnect] := by
                rw [hmain]
                cases env.disconnectErr <;>
                  simp [hsig, brokerActions_append, hd2] <;> simp [brokerActions]
              rw [hb]
              simp
          | exited status =>
            have hb : brokerActions (main env).1 = [.connect, .subscribe, .awaitSignal] := by
              rw [hmain]; simp [hd2]
            rw [hb]
            simp
          | panicked p =>
            have hb : brokerActions (main env).1 = [.connect, .subscribe, .awaitSignal] := by
              rw [hmain]; simp [hd2]
            rw [hb]
            simp
          | blocked =>
            have hb : brokerActions (main env).1 = [.connect, .subscribe, .awaitSignal] := by
              rw [hmain]; simp [hd2]
            rw [hb]
            simp

/-- C8 on linux when the broker refuses the connection: connect is the only
broker action and the process ends by a panic. -/
theorem main_broker_order_witness :
    brokerActions (main refusedEnv).1 = [.connect] ∧
      (main refusedEnv).2 = .panicked .logged :=
  (main_broker_order refusedEnv (by rw [refusedEnv, mapLookup_linux]; simp)).2.2.2.1
    (by decide) (by simp [refusedEnv])

/-! ## C9 -/

/-- C9: on a platform of the table, for every sequence of inbound messages
handled one after another, the command lines asked of the operating system
are, in order, the on-command for each payload "on" and the off-command for
each payload "off", up to and including the first one whose run fails; each
handler call for "on" or "off" asks for exactly one process whatever came
before, also when the run fails; and n deliveries of "on" with successful
commands run the on-command n times. -/
theorem deliver_one_process_per_payload (host : Host) (osType : String) (c : displayCommands)
    (hsup : mapLookup commands osType = some c) (msgs : List (List Byte × List Byte))
    (tr : Trace) :
    spawned (deliver host osType msgs tr).1 =
        spawned tr ++
          throughFirstFailure host (spawned tr).length
            (msgs.filterMap fun m => requested c m.2) ∧
      (∀ topic payload line (before : Trace), requested c payload = some line →
        spawned (analyzePayload host osType topic payload before).1 = spawned before ++ [line]) ∧
      (∀ topic payload (before : Trace), requested c payload = none →
        spawned (analyzePayload host osType topic payload before).1 = spawned before) ∧
      ((∀ k line, succeeds (host k line) = true) → ∀ n topic,
        spawned (deliver host osType (List.replicate n (topic, goString "on")) tr).1 =
          spawned tr ++ List.replicate n c.OnCommand) := by
  refine ⟨deliver_spawned host osType c hsup msgs tr, ?_, ?_, ?_⟩
  · intro topic payload line before hr
    exact ((analyzePayload_supported host osType c hsup topic payload before).2 line hr).1
  · intro topic payload before hr
    exact ((analyzePayload_supported host osType c hsup topic payload before).1 hr).2
  · intro hall n topic
    rw [deliver_spawned host osType c hsup, throughFirstFailure_all host hall]
    congr 1
    induction n with
    | zero => rfl
    | succ n ih => simp [List.replicate_succ, List.filterMap_cons, requested_on, ih]

/-- C9 on linux for the payloads on, toggle, off, on where the second command
run (the off-command) exits with status 1: the last "on" is never run. -/
theorem deliver_one_process_per_payload_witness :
    spawned (deliver (fun n _ => if n = 1 then .exits 1 [] else .exits 0 []) "linux"
        [([], goString "on"), ([], goString "toggle"), ([], goString "off"),
          ([], goString "on")] []).1 =
      [["xset", "dpms", "force", "on"], ["xset", "dpms", "force", "off"]] :=
  (deliver_one_process_per_payload (fun n _ => if n = 1 then .exits 1 [] else .exits 0 [])
    "linux" _ mapLookup_linux
    [([], goString "on"), ([], goString "toggle"), ([], goString "off"), ([], goString "on")]
    []).1.trans (by decide)

/-! ## C10 -/

/-- C10: once the start-up check has passed (the platform key is in the
table), the accesses OnCommand[0], OnCommand[1:], OffCommand[0] and
OffCommand[1:] are in bounds and the handler never panics, whatever the topic
and payload; when the key is missing, the entry read is the zero value, all
four accesses are out of bounds, and the handler ends on "on" and on "off"
with a run-time panic, which is one of the two out-of-range errors (which of
the two depends on the order the operands are evaluated in). -/
theorem analyzePayload_index_safety (host : Host) (osType : String)
    (topic payload : List Byte) (tr : Trace) :
    (mapLookup commands osType ≠ none →
        (∃ name, index0 (mapIndex commands osType).OnCommand = .ok name) ∧
        (∃ arg, sliceFrom1 (mapIndex commands osType).OnCommand = .ok arg) ∧
        (∃ name, index0 (mapIndex commands osType).OffCommand = .ok name) ∧
        (∃ arg, sliceFrom1 (mapIndex commands osType).OffCommand = .ok arg) ∧
        ∀ p, (analyzePayload host osType topic payload tr).2 ≠ .panicked p) ∧
      (mapLookup commands osType = none →
        index0 (mapIndex commands osType).OnCommand = .error (.indexOutOfRange 0 0) ∧
        sliceFrom1 (mapIndex commands osType).OnCommand = .error (.sliceOutOfRange 1 0) ∧
        index0 (mapIndex commands osType).OffCommand = .error (.indexOutOfRange 0 0) ∧
        sliceFrom1 (mapIndex commands osType).OffCommand = .error (.sliceOutOfRange 1 0) ∧
        ((payload = goString "on" ∨ payload = goString "off") →
          ∃ p, (analyzePayload host osType topic payload tr).2 = .panicked p ∧
            (p = .indexOutOfRange 0 0 ∨ p = .sliceOutOfRange 1 0))) := by
  constructor
  · intro hsup
    obtain ⟨c, hc⟩ := Option.ne_none_iff_exists'.mp hsup
    have hidx := mapIndex_of_lookup osType c hc
    obtain ⟨on0, onRest, off0, offRest, hon, hoff⟩ :
        ∃ on0 onRest off0 offRest, c.OnCommand = on0 :: onRest ∧ c.OffCommand = off0 :: offRest := by
      rcases mapLookup_some_cases osType c hc with ⟨_, h⟩ | ⟨_, h⟩
      · subst h; exact ⟨_, _, _, _, rfl, rfl⟩
      · subst h; exact ⟨_, _, _, _, rfl, rfl⟩
    rw [hidx, hon, hoff]
    refine ⟨⟨on0, rfl⟩, ⟨onRest, by simp [sliceFrom1]⟩, ⟨off0, rfl⟩,
      ⟨offRest, by simp [sliceFrom1]⟩, ?_⟩
    intro p
    by_cases h1 : payload = goString "on"
    · subst h1
      rw [analyzePayload_on, hidx, hon, commandOf_cons]
      simp only []
      cases h : succeeds (host (spawned (tr ++ [.log .Printf "got: [t] %s  [m] %s\n"
          [.bytes topic, .bytes (goString "on")]])).length (on0 :: onRest)) with
      | true => rw [runAndReport_success _ _ _ _ h]; simp
      | false => rw [runAndReport_failure _ _ _ _ h]; simp
    · by_cases h2 : payload = goString "off"
      · subst h2
        rw [analyzePayload_off, hidx, hoff, commandOf_cons]
        simp only []
        cases h : succeeds (host (spawned (tr ++ [.log .Printf "got: [t] %s  [m] %s\n"
            [.bytes topic, .bytes (goString "off")]])).length (off0 :: offRest)) with
        | true => rw [runAndReport_success _ _ _ _ h]; simp
        | false => rw [runAndReport_failure _ _ _ _ h]; simp
      · rw [analyzePayload_other host osType topic payload tr h1 h2]
        simp
  · intro hmiss
    have hidx := mapIndex_of_missing osType hmiss
    rw [hidx]
    refine ⟨rfl, rfl, rfl, rfl, ?_⟩
    rintro (h | h)
    · subst h
      rw [analyzePayload_on, hidx]
      exact ⟨.sliceOutOfRange 1 0, rfl, Or.inr rfl⟩
    · subst h
      rw [analyzePayload_off, hidx]
      exact ⟨.sliceOutOfRange 1 0, rfl, Or.inr rfl⟩

/-- C10 on linux (check passed, payload "on": no panic) and on plan9 (key
missing, payload "on": an out-of-range panic). -/
theorem analyzePayload_index_safety_witness :
    (∀ p, (analyzePayload (fun _ _ => .exits 0 []) "linux" [] (goString "on") []).2
        ≠ .panicked p) ∧
      (∃ p, (analyzePayload (fun _ _ => .exits 0 []) "plan9" [] (goString "on") []).2
          = .panicked p ∧ (p = .indexOutOfRange 0 0 ∨ p = .sliceOutOfRange 1 0)) :=
  ⟨((analyzePayload_index_safety (fun _ _ => .exits 0 []) "linux" [] (goString "on") []).1
      (by rw [mapLookup_linux]; simp)).2.2.2.2,
    ((analyzePayload_index_safety (fun _ _ => .exits 0 []) "plan9" [] (goString "on") []).2
      (mapLookup_other "plan9" (by decide) (by decide))).2.2.2.2 (Or.inl rfl)⟩

end MqttXset
